import Mathlib

/-!
# Verification of the go-api-http-client core against its specification

Shallow embedding of the repository's Go sources:
* `httpclient_error_response.go` (src/unnamed/part_001): `handleAPIErrorResponse`
  and its helpers,
* `http_rate_handler.go` (src/unnamed/part_000): `parseRateLimitHeaders`,
  `calculateBackoff` (the jitter is kept abstract),
* `msgraph_api_headers.go` (src/unnamed/part_000): `GetContentTypeHeader`,
* `httpclient_client_configuration.go` (src/httpclient): `LoadConfigFromEnv`,
  `parseBool`, `parseInt`, `parseDuration`, `validateMandatoryConfiguration`,
  `setClientDefaultValues`, `setLoggerDefaultValues`,
* `http_request.go` (src/unnamed/part_002): `DoRequest`,
  `executeRequestWithRetries`, `executeRequest`.

Machine integers are modelled as `Int` with explicit int64 semantics where
the source can leave the representable range: string→int parsing carries its
range check, the rate-limit parser's seconds→nanoseconds multiplication and
duration addition wrap (`wrap64`), and `time.Until` saturates (`satSub`).
`time.Duration` and `time.Time` are both modelled as `Int` nanoseconds.
Go standard-library
functions used by the sources are either embedded directly (`strconv.Atoi`,
`strconv.ParseBool`, `strings.Contains`, `strings.HasPrefix`) or, where they
perform I/O or full date/duration grammar parsing, kept as parameters of the
model (`time.Parse`, `time.ParseDuration`, `Duration.String`, `json` syntax
parsing, the HTTP transport).
-/

namespace GoClient

/-! ## Go standard-library string helpers -/

/-- Predicate `charsHasPre needle hay`: `needle` is a prefix of `hay` (on char lists). -/
def charsHasPre : List Char → List Char → Bool
  | [], _ => true
  | _ :: _, [] => false
  | a :: as, b :: bs => a = b && charsHasPre as bs

/-- Predicate `charsInfixOf needle hay`: `needle` occurs contiguously inside `hay`. -/
def charsInfixOf (needle : List Char) : List Char → Bool
  | [] => charsHasPre needle []
  | hay@(_ :: tl) => charsHasPre needle hay || charsInfixOf needle tl

/-- Go `strings.Contains(s, sub)`. -/
def goContains (s sub : String) : Bool := charsInfixOf sub.data s.data

/-- Go `strings.HasPrefix(s, pre)`. -/
def goHasPre (s pre : String) : Bool := charsHasPre pre.data s.data

/-- ASCII lower-casing of one character. -/
def lowChar (c : Char) : Char :=
  if 'A' ≤ c ∧ c ≤ 'Z' then Char.ofNat (c.toNat + 32) else c

/-- ASCII lower-casing of a string (used to model `encoding/json`'s
case-insensitive field matching; all relevant field names are ASCII). -/
def lowerStr (s : String) : String := String.mk (s.data.map lowChar)

/-- Decimal digits to a natural number; fails on any non-digit. -/
def digitsToNat : List Char → Option Nat
  | [] => some 0
  | c :: cs =>
    if c.isDigit then
      (digitsToNat cs).map (fun rest => (c.toNat - 48) * 10 ^ cs.length + rest)
    else
      none

/-- Go `strconv.Atoi` / `strconv.ParseInt(s, 10, 64)`: optional sign, at least
one digit, only digits, value within the signed 64-bit range. -/
def strconvAtoi (s : String) : Option Int :=
  match s.data with
  | [] => none
  | c :: rest =>
    let signedTail : Bool × List Char :=
      if c = '-' then (true, rest)
      else if c = '+' then (false, rest)
      else (false, c :: rest)
    match signedTail with
    | (neg, ds) =>
      match ds with
      | [] => none
      | _ =>
        (digitsToNat ds).bind fun n =>
          let v : Int := if neg then -(n : Int) else (n : Int)
          if -(2 ^ 63) ≤ v ∧ v < 2 ^ 63 then some v else none

/-- Go `strconv.ParseBool`: accepts exactly
`1, t, T, TRUE, true, True, 0, f, F, FALSE, false, False`. -/
def strconvParseBool (s : String) : Option Bool :=
  if s = "1" ∨ s = "t" ∨ s = "T" ∨ s = "TRUE" ∨ s = "true" ∨ s = "True" then
    some true
  else if s = "0" ∨ s = "f" ∨ s = "F" ∨ s = "FALSE" ∨ s = "false" ∨ s = "False" then
    some false
  else
    none

/-- Go `strconv.FormatBool`. -/
def strconvFormatBool (b : Bool) : String := if b then "true" else "false"

/-- Go `strconv.Itoa` (Lean's decimal printing of `Int` agrees with Go's). -/
def strconvItoa (n : Int) : String := toString n

/-- One nanosecond per unit; `time.Second` in Go. -/
def nsPerSec : Int := 1000000000

/-- The parts of Go's `time` and `encoding/json` libraries that the sources
call but that are outside this repository: RFC 1123 date parsing
(`time.Parse(time.RFC1123, s)`, result as nanoseconds since the epoch),
duration-string parsing (`time.ParseDuration`) and printing
(`time.Duration.String`).  Theorems quantify over this record. -/
structure GoTimeLib where
  parseRFC1123 : String → Option Int
  parseDur : String → Option Int
  durString : Int → String

/-- A concrete instantiation used only to produce closed witness statements
(it agrees with the real library on the inputs the witnesses use: none of
them is a valid RFC 1123 date or Go duration string). -/
def trivTimeLib : GoTimeLib where
  parseRFC1123 := fun _ => none
  parseDur := fun _ => none
  durString := fun _ => ""

/-! ## JSON values

`encoding/json` syntax trees, as far as the error decoder can observe them.
JSON numbers are modelled as integers only: no claim depends on fractional
numerals. -/

inductive JVal where
  | jnull
  | jbool (b : Bool)
  | jnum (n : Int)
  | jstr (s : String)
  | jarr (elems : List JVal)
  | jobj (fields : List (String × JVal))

/-! ## Error response decoder (`httpclient_error_response.go`) -/

/-- Structure `APIError` from httpclient_error_response.go lines 16-23. -/
structure APIError where
  statusCode : Int
  type : String
  message : String
  detail : String
  errors : Option (List (String × JVal))
  raw : String

/-- The initial `apiError` value built at lines 40-44: status code from the
response, default type and message, remaining fields zero. -/
def mkBaseAPIError (code : Int) : APIError :=
  { statusCode := code
    type := "APIError"
    message := "An error occurred"
    detail := ""
    errors := none
    raw := "" }

/-- One field step of Go's `json.Unmarshal(bodyBytes, &apiError)`: keys are
matched case-insensitively against the exported field names; a `null` value is
a no-op; a type mismatch records an error but decoding continues (as
`encoding/json` does); unknown keys are ignored. -/
def applyField (e : APIError) (ok : Bool) (k : String) (v : JVal) : APIError × Bool :=
  match lowerStr k, v with
  | _, .jnull => (e, ok)
  | "statuscode", .jnum n => ({ e with statusCode := n }, ok)
  | "statuscode", _ => (e, false)
  | "type", .jstr s => ({ e with type := s }, ok)
  | "type", _ => (e, false)
  | "message", .jstr s => ({ e with message := s }, ok)
  | "message", _ => (e, false)
  | "detail", .jstr s => ({ e with detail := s }, ok)
  | "detail", _ => (e, false)
  | "errors", .jobj fs => ({ e with errors := some fs }, ok)
  | "errors", _ => (e, false)
  | "raw", .jstr s => ({ e with raw := s }, ok)
  | "raw", _ => (e, false)
  | _, _ => (e, ok)

/-- Go `json.Unmarshal(bodyBytes, &apiError)` on an already syntactically
parsed value: a JSON object is decoded field by field in input order
(later duplicates overwrite), `null` succeeds without touching the target,
any other top-level value fails without touching the target.  The `Bool`
is `err == nil`. -/
def structUnmarshal (e : APIError) : JVal → APIError × Bool
  | .jobj fs => fs.foldl (fun p kv => applyField p.1 p.2 kv.1 kv.2) (e, true)
  | .jnull => (e, true)
  | _ => (e, false)

/-- Go map indexing `m[k]` for a map built from a JSON object
(later duplicate keys win). -/
def lookupLast (m : List (String × JVal)) (k : String) : Option JVal :=
  ((m.filter (fun kv => kv.1 = k)).getLast?).map (fun kv => kv.2)

/-- Function `updateFromGenericError` (lines 106-114): copy the `message` and `detail`
entries into the error when they are present and are strings. -/
def updateFromGenericError (e : APIError) (m : List (String × JVal)) : APIError :=
  let e1 :=
    match lookupLast m "message" with
    | some (.jstr s) => { e with message := s }
    | _ => e
  match lookupLast m "detail" with
  | some (.jstr s) => { e1 with detail := s }
  | _ => e1

/-- An HTTP error response as the decoder observes it: status code, the
`Content-Type` header value, the body (`none` models an `io.ReadAll` failure)
and the `encoding/json` syntactic parse of the body (`none` iff the body is
not valid JSON; both `json.Unmarshal` calls in the source see the same
syntax). -/
structure ErrResponse where
  statusCode : Int
  contentType : String
  body : Option String
  parsed : Option JVal

/-- Function `isJSONResponse` (lines 85-88). -/
def isJSONResponse (r : ErrResponse) : Bool := goContains r.contentType "application/json"

/-- Function `isHTMLResponse` (lines 91-94). -/
def isHTMLResponse (r : ErrResponse) : Bool := goContains r.contentType "text/html"

/-- Function `handleAPIErrorResponse` (lines 39-82).  Branch structure follows the
source: read failure → bare error; JSON content type → try the struct
decode (returned when `err == nil && apiError.Message != ""`), then the
generic-map decode on the *same, possibly partially mutated* error value;
a body that fails both falls to the final `return apiError` at line 81,
which attaches nothing; HTML content type → raw body plus fixed message;
anything else → raw body plus `"Non-JSON error response received"`. -/
def handleAPIErrorResponse (r : ErrResponse) : APIError :=
  let apiError := mkBaseAPIError r.statusCode
  match r.body with
  | none => apiError
  | some bodyBytes =>
    if isJSONResponse r then
      match r.parsed with
      | none => apiError
      | some j =>
        let su := structUnmarshal apiError j
        if su.2 && su.1.message != "" then su.1
        else
          match j with
          | .jobj fs => updateFromGenericError su.1 fs
          | _ => su.1
    else if isHTMLResponse r then
      { apiError with raw := bodyBytes, message := "HTML error page received" }
    else
      { apiError with raw := bodyBytes, message := "Non-JSON error response received" }

/-! ## Rate-limit header parser and backoff (`http_rate_handler.go`) -/

/-- The three response headers the parser reads.  `resp.Header.Get` returns
`""` for an absent header, so values are plain strings with `""` = absent. -/
structure Headers where
  retryAfter : String
  rlRemaining : String
  rlReset : String
deriving DecidableEq

/-- Go int64 two's-complement arithmetic: wrap a mathematical integer into
`[-2^63, 2^63)`, as Go's `int64` multiplication and addition do on
overflow. -/
def wrap64 (n : Int) : Int := (n + 2 ^ 63) % 2 ^ 64 - 2 ^ 63

/-- Go `time.Time.Sub` (and hence `time.Until`): the exact difference of two
instants, but returned as the maximum (resp. minimum) `Duration` when it
does not fit in int64 nanoseconds. -/
def satSub (a b : Int) : Int :=
  if 2 ^ 63 - 1 < a - b then 2 ^ 63 - 1
  else if a - b < -(2 ^ 63) then -(2 ^ 63)
  else a - b

/-- The offset (in seconds) between the Unix epoch and `time.Time`'s internal
int64-seconds epoch (year 1): Go's `unixToInternal`. -/
def unixToInternal : Int := 62135596800

/-- Go `time.Unix(sec, 0)` as an instant in Unix nanoseconds: the seconds
are stored internally as `sec + unixToInternal` in an int64, so extreme
epochs wrap there; the instant itself is then exact (the later saturating
`Sub` is what bounds durations). -/
def timeUnixNs (sec : Int) : Int :=
  (wrap64 (sec + unixToInternal) - unixToInternal) * nsPerSec

/-- Function `parseRateLimitHeaders` (http_rate_handler.go lines 161-190).
`lib.parseRFC1123` stands for `time.Parse(time.RFC1123, ·)` (instants in
Unix nanoseconds); `now` is the current instant; the result is a duration in
int64 nanoseconds.  A non-empty `Retry-After` that `Atoi` accepts (any sign)
yields `time.Duration(waitSeconds) * time.Second`, an int64 product that
*wraps* for `|waitSeconds|` beyond about `9.2e9`; else an RFC 1123 date
yields `time.Until(date)`, which saturates at the Duration bounds and is
*not* clamped to ≥ 0; else, when `X-RateLimit-Remaining == "0"` and
`X-RateLimit-Reset` parses as an epoch integer,
`time.Until(time.Unix(reset, 0))` plus a 5-second skew buffer — an int64
addition that can wrap after saturation; otherwise 0. -/
def parseRateLimitHeaders (lib : GoTimeLib) (h : Headers) (now : Int) : Int :=
  let viaRetryAfter : Option Int :=
    if h.retryAfter ≠ "" then
      match strconvAtoi h.retryAfter with
      | some n => some (wrap64 (n * nsPerSec))
      | none =>
        match lib.parseRFC1123 h.retryAfter with
        | some d => some (satSub d now)
        | none => none
    else none
  match viaRetryAfter with
  | some w => w
  | none =>
    if h.rlRemaining = "0" then
      if h.rlReset ≠ "" then
        match strconvAtoi h.rlReset with
        | some epoch => wrap64 (satSub (timeUnixNs epoch) now + 5 * nsPerSec)
        | none => 0
      else 0
    else 0

/-! ### Claim C6 -/

/-- C6, counterexample.  The claim says the returned duration is never
negative (a non-negative-integer `Retry-After` gives seconds, everything
unmatched gives 0), but `strconv.Atoi` also accepts negative integers and the
code returns them as-is: `Retry-After: -5` yields minus five seconds.  And a
*non-negative* `Retry-After: 10000000000` overflows the int64 seconds→
nanoseconds multiplication and comes back negative too, so the executor will
not wait at all. -/
theorem c6_negative_wait_cex :
    GoClient.parseRateLimitHeaders GoClient.trivTimeLib ⟨"-5", "", ""⟩ 0
      = -5 * GoClient.nsPerSec
    ∧ GoClient.parseRateLimitHeaders GoClient.trivTimeLib ⟨"-5", "", ""⟩ 0 < 0
    ∧ GoClient.parseRateLimitHeaders GoClient.trivTimeLib ⟨"10000000000", "", ""⟩ 0 < 0 := by
  refine ⟨by decide, by decide, by decide⟩

/-- C6, amended: the parser is total and computes in Go int64 nanoseconds.
In order: a non-empty `Retry-After` accepted by `Atoi` (any sign) yields the
*wrapped* product `wrap64 (n · 1e9)` — `n` seconds when that fits in int64,
a wrapped (possibly negative) value otherwise; else an RFC 1123 date yields
the saturating `time.Until` difference `satSub date now`, with *no* clamping
to ≥ 0; else if `X-RateLimit-Remaining` is `"0"` and `X-RateLimit-Reset` is
an epoch integer, `wrap64 (satSub (time.Unix reset) now + 5 s)`; otherwise
0.  The result can be negative; the executor only honours positive waits. -/
theorem c6_rate_limit_parse_amended (lib : GoTimeLib) (h : Headers) (now : Int) :
    (∀ n, h.retryAfter ≠ "" → GoClient.strconvAtoi h.retryAfter = some n →
      GoClient.parseRateLimitHeaders lib h now = GoClient.wrap64 (n * GoClient.nsPerSec))
    ∧ (∀ d, h.retryAfter ≠ "" → GoClient.strconvAtoi h.retryAfter = none →
        lib.parseRFC1123 h.retryAfter = some d →
        GoClient.parseRateLimitHeaders lib h now = GoClient.satSub d now)
    ∧ (∀ e, (h.retryAfter = "" ∨
          (GoClient.strconvAtoi h.retryAfter = none ∧ lib.parseRFC1123 h.retryAfter = none)) →
        h.rlRemaining = "0" → h.rlReset ≠ "" → GoClient.strconvAtoi h.rlReset = some e →
        GoClient.parseRateLimitHeaders lib h now
          = GoClient.wrap64
              (GoClient.satSub (GoClient.timeUnixNs e) now + 5 * GoClient.nsPerSec))
    ∧ ((h.retryAfter = "" ∨
          (GoClient.strconvAtoi h.retryAfter = none ∧ lib.parseRFC1123 h.retryAfter = none)) →
        (h.rlRemaining ≠ "0" ∨ h.rlReset = "" ∨ GoClient.strconvAtoi h.rlReset = none) →
        GoClient.parseRateLimitHeaders lib h now = 0) := by
  refine ⟨?_, ?_, ?_, ?_⟩
  · intro n hne hatoi
    simp [GoClient.parseRateLimitHeaders, hne, hatoi]
  · intro d hne hatoi hdate
    simp [GoClient.parseRateLimitHeaders, hne, hatoi, hdate]
  · intro e hra hrem hrs hatoi
    rcases hra with hempty | ⟨hatoiRA, hdate⟩
    · simp [GoClient.parseRateLimitHeaders, hempty, hrem, hrs, hatoi]
    · simp [GoClient.parseRateLimitHeaders, hatoiRA, hdate, hrem, hrs, hatoi]
  · intro hra hrest
    rcases hra with hempty | ⟨hatoiRA, hdate⟩
    · rcases hrest with hrem | hrs | hatoi
      · simp [GoClient.parseRateLimitHeaders, hempty, hrem]
      · simp [GoClient.parseRateLimitHeaders, hempty, hrs]
      · simp [GoClient.parseRateLimitHeaders, hempty, hatoi]
    · rcases hrest with hrem | hrs | hatoi
      · simp [GoClient.parseRateLimitHeaders, hatoiRA, hdate, hrem]
      · simp [GoClient.parseRateLimitHeaders, hatoiRA, hdate, hrs]
      · simp [GoClient.parseRateLimitHeaders, hatoiRA, hdate, hatoi]

/-- C6, witness: a plain `Retry-After: 7` yields the wrapped product — which
at this magnitude is exactly 7 seconds — via the amended theorem's first
clause. -/
theorem c6_rate_limit_parse_amended_witness :
    GoClient.parseRateLimitHeaders GoClient.trivTimeLib ⟨"7", "", ""⟩ 0
      = GoClient.wrap64 (7 * GoClient.nsPerSec)
    ∧ GoClient.wrap64 (7 * GoClient.nsPerSec) = 7 * GoClient.nsPerSec :=
  ⟨(c6_rate_limit_parse_amended GoClient.trivTimeLib ⟨"7", "", ""⟩ 0).1
      7 (by decide) (by decide),
    by decide⟩

/-! ## Content-type lookup (`msgraph_api_headers.go`) -/

/-- Function `GetContentTypeHeader` (msgraph_api_headers.go lines 53-70).  The source
iterates `for key, config := range configMap` over a Go map; Go map iteration
order is unspecified and varies between runs, so the model takes the map
*in the iteration order the runtime happens to present* as a list of
`(path-prefix, content-type)` pairs, `none` standing for an entry whose
`ContentType` pointer is nil ("do not set the header", returned as `""`).
The first entry whose key is a prefix of the endpoint wins; with no match the
fallback is `application/json`. -/
def GetContentTypeHeader (configMap : List (String × Option String))
    (endpoint : String) : String :=
  match configMap with
  | [] => "application/json"
  | (key, ct) :: rest =>
    if goHasPre endpoint key then
      match ct with
      | some s => s
      | none => ""
    else GetContentTypeHeader rest endpoint

/-! ### Claim C8 -/

/-- C8.  The claim (and the spec's own design note) requires a deterministic
longest-prefix match, but the code returns the first match in Go map
iteration order: the same two-entry map presented in its two possible
iteration orders gives two different answers for the endpoint `/ab`, and in
one of them the shorter prefix `/a` wins over the longer `/ab`. -/
theorem c8_content_type_order_dependent :
    GoClient.GetContentTypeHeader
        [("/a", some "text/plain"), ("/ab", some "application/xml")] "/ab"
      = "text/plain"
    ∧ GoClient.GetContentTypeHeader
        [("/ab", some "application/xml"), ("/a", some "text/plain")] "/ab"
      = "application/xml"
    ∧ List.Perm
        [("/a", (some "text/plain" : Option String)), ("/ab", some "application/xml")]
        [("/ab", some "application/xml"), ("/a", some "text/plain")] := by
  refine ⟨by decide, by decide, by decide⟩

/-! ## Client configuration (`httpclient_client_configuration.go`) -/

/-- Structure `AuthConfig`: the fields `LoadConfigFromEnv` reads and validates. -/
structure AuthConfig where
  clientID : String
  clientSecret : String

/-- Structure `EnvironmentConfig`. -/
structure EnvironmentConfig where
  instanceName : String
  overrideBaseDomain : String
  apiType : String

/-- Structure `ClientOptions`; durations in nanoseconds. -/
structure ClientOptions where
  logLevel : String
  logOutputFormat : String
  logConsoleSeparator : String
  hideSensitiveData : Bool
  maxRetryAttempts : Int
  enableDynamicRateLimiting : Bool
  maxConcurrentRequests : Int
  tokenRefreshBufferPeriod : Int
  totalRetryDuration : Int
  customTimeout : Int

/-- Structure `ClientConfig`. -/
structure ClientConfig where
  auth : AuthConfig
  environment : EnvironmentConfig
  clientOptions : ClientOptions

/-- The compiled defaults (configuration file lines 17-25); `DefaultLogLevel`
is also declared there but never used by `LoadConfigFromEnv`. -/
def DefaultMaxRetryAttempts : Int := 3

def DefaultEnableDynamicRateLimiting : Bool := true

def DefaultMaxConcurrentRequests : Int := 5

def DefaultTokenBufferPeriod : Int := 5 * 60 * nsPerSec

def DefaultTotalRetryDuration : Int := 5 * 60 * nsPerSec

def DefaultTimeout : Int := 10 * nsPerSec

/-- Function `getEnvOrDefault` (lines 151-156); the environment is a partial map. -/
def getEnvOrDefault (env : String → Option String) (envKey defaultValue : String) : String :=
  (env envKey).getD defaultValue

/-- Function `parseBool` (lines 159-165): any unparseable value becomes `false`. -/
def parseBool (value : String) : Bool := (strconvParseBool value).getD false

/-- Function `parseInt` (lines 168-174): unparseable values fall back to `defaultVal`. -/
def parseInt (value : String) (defaultVal : Int) : Int := (strconvAtoi value).getD defaultVal

/-- Function `parseDuration` (lines 177-183). -/
def parseDuration (lib : GoTimeLib) (value : String) (defaultVal : Int) : Int :=
  (lib.parseDur value).getD defaultVal

/-- The environment-variable assignments of `LoadConfigFromEnv`
(lines 91-136), before defaulting and validation. -/
def applyEnvConfig (lib : GoTimeLib) (env : String → Option String)
    (config : ClientConfig) : ClientConfig :=
  { auth :=
      { clientID := getEnvOrDefault env "CLIENT_ID" config.auth.clientID
        clientSecret := getEnvOrDefault env "CLIENT_SECRET" config.auth.clientSecret }
    environment :=
      { instanceName := getEnvOrDefault env "INSTANCE_NAME" config.environment.instanceName
        overrideBaseDomain :=
          getEnvOrDefault env "OVERRIDE_BASE_DOMAIN" config.environment.overrideBaseDomain
        apiType := getEnvOrDefault env "API_TYPE" config.environment.apiType }
    clientOptions :=
      { logLevel := getEnvOrDefault env "LOG_LEVEL" config.clientOptions.logLevel
        logOutputFormat :=
          getEnvOrDefault env "LOG_OUTPUT_FORMAT" config.clientOptions.logOutputFormat
        logConsoleSeparator :=
          getEnvOrDefault env "LOG_CONSOLE_SEPARATOR" config.clientOptions.logConsoleSeparator
        hideSensitiveData :=
          parseBool (getEnvOrDefault env "HIDE_SENSITIVE_DATA"
            (strconvFormatBool config.clientOptions.hideSensitiveData))
        maxRetryAttempts :=
          parseInt (getEnvOrDefault env "MAX_RETRY_ATTEMPTS"
            (strconvItoa config.clientOptions.maxRetryAttempts)) DefaultMaxRetryAttempts
        enableDynamicRateLimiting :=
          parseBool (getEnvOrDefault env "ENABLE_DYNAMIC_RATE_LIMITING"
            (strconvFormatBool config.clientOptions.enableDynamicRateLimiting))
        maxConcurrentRequests :=
          parseInt (getEnvOrDefault env "MAX_CONCURRENT_REQUESTS"
            (strconvItoa config.clientOptions.maxConcurrentRequests))
            DefaultMaxConcurrentRequests
        tokenRefreshBufferPeriod :=
          parseDuration lib (getEnvOrDefault env "TOKEN_REFRESH_BUFFER_PERIOD"
            (lib.durString config.clientOptions.tokenRefreshBufferPeriod))
            DefaultTokenBufferPeriod
        totalRetryDuration :=
          parseDuration lib (getEnvOrDefault env "TOTAL_RETRY_DURATION"
            (lib.durString config.clientOptions.totalRetryDuration))
            DefaultTotalRetryDuration
        customTimeout :=
          parseDuration lib (getEnvOrDefault env "CUSTOM_TIMEOUT"
            (lib.durString config.clientOptions.customTimeout)) DefaultTimeout } }

/-- Function `setLoggerDefaultValues` (lines 271-280): only the console separator is
defaulted — notably *not* the log level or output format. -/
def setLoggerDefaultValues (config : ClientConfig) : ClientConfig :=
  let sep :=
    if config.clientOptions.logConsoleSeparator = "" then ","
    else config.clientOptions.logConsoleSeparator
  { config with clientOptions := { config.clientOptions with logConsoleSeparator := sep } }

/-- Function `setClientDefaultValues` (lines 228-266).  The source mutates the config
through a sequence of if-blocks; each guard reads only the field it sets
(the later `== 0` guards see the value left by the earlier `< 0`/`<= 0`
guards), so computing each final field value and writing the record once is
the same function. -/
def setClientDefaultValues (config : ClientConfig) : ClientConfig :=
  let o := config.clientOptions
  let maxRetry := if o.maxRetryAttempts < 0 then DefaultMaxRetryAttempts else o.maxRetryAttempts
  let maxConc :=
    if o.maxConcurrentRequests ≤ 0 then DefaultMaxConcurrentRequests
    else o.maxConcurrentRequests
  let buf1 :=
    if o.tokenRefreshBufferPeriod < 0 then DefaultTokenBufferPeriod
    else o.tokenRefreshBufferPeriod
  let dur1 :=
    if o.totalRetryDuration ≤ 0 then DefaultTotalRetryDuration else o.totalRetryDuration
  let buf2 := if buf1 = 0 then DefaultTokenBufferPeriod else buf1
  let dur2 := if dur1 = 0 then DefaultTotalRetryDuration else dur1
  let timeout := if o.customTimeout = 0 then DefaultTimeout else o.customTimeout
  { config with clientOptions :=
      { o with
          maxRetryAttempts := maxRetry
          maxConcurrentRequests := maxConc
          tokenRefreshBufferPeriod := buf2
          totalRetryDuration := dur2
          customTimeout := timeout } }

/-- The `missingFields` slice built by `validateMandatoryConfiguration`
(lines 188-213), in source order. -/
def missingFieldsOf (config : ClientConfig) : List String :=
  (if config.auth.clientID = "" then ["Auth.ClientID"] else [])
  ++ (if config.auth.clientSecret = "" then ["Auth.ClientSecret"] else [])
  ++ (if config.environment.instanceName = "" then ["Environment.InstanceName"] else [])
  ++ (if config.environment.apiType = "" then ["Environment.APIType"] else [])
  ++ (if config.clientOptions.logLevel = "" then ["ClientOptions.LogLevel"] else [])
  ++ (if config.clientOptions.logOutputFormat = "" then ["ClientOptions.LogOutputFormat"] else [])
  ++ (if config.clientOptions.logConsoleSeparator = ""
      then ["ClientOptions.LogConsoleSeparator"] else [])

/-- Function `validateMandatoryConfiguration` (lines 188-221): `none` = valid. -/
def validateMandatoryConfiguration (config : ClientConfig) : Option String :=
  let missingFields := missingFieldsOf config
  if missingFields.isEmpty then none
  else some ("mandatory configuration missing: " ++ String.intercalate ", " missingFields)

/-- The fully processed configuration: env assignments, then logger defaults,
then client defaults — exactly the sequence of `LoadConfigFromEnv` before its
final validation. -/
def resolvedConfig (lib : GoTimeLib) (env : String → Option String)
    (config : ClientConfig) : ClientConfig :=
  setClientDefaultValues (setLoggerDefaultValues (applyEnvConfig lib env config))

/-- Function `LoadConfigFromEnv` (lines 85-148). -/
def LoadConfigFromEnv (lib : GoTimeLib) (env : String → Option String)
    (config : ClientConfig) : Except String ClientConfig :=
  let c := resolvedConfig lib env config
  match validateMandatoryConfiguration c with
  | some e => Except.error e
  | none => Except.ok c

/-- Whether a configuration-load result is a success. -/
def exceptIsOk : Except String ClientConfig → Bool
  | .ok _ => true
  | .error _ => false

/-- Validation accepts exactly the configurations whose
seven validated string fields are all non-empty. -/
theorem validate_none_iff (c : ClientConfig) :
    validateMandatoryConfiguration c = none ↔
      (c.auth.clientID ≠ "" ∧ c.auth.clientSecret ≠ ""
        ∧ c.environment.instanceName ≠ "" ∧ c.environment.apiType ≠ ""
        ∧ c.clientOptions.logLevel ≠ "" ∧ c.clientOptions.logOutputFormat ≠ ""
        ∧ c.clientOptions.logConsoleSeparator ≠ "") := by
  have hsingle : ∀ (p : Prop) (inst : Decidable p) (a : String),
      ((if p then [a] else []) = ([] : List String)) ↔ ¬ p := by
    intro p inst a
    split <;> simp [*]
  have hmissing : missingFieldsOf c = [] ↔
      (c.auth.clientID ≠ "" ∧ c.auth.clientSecret ≠ ""
        ∧ c.environment.instanceName ≠ "" ∧ c.environment.apiType ≠ ""
        ∧ c.clientOptions.logLevel ≠ "" ∧ c.clientOptions.logOutputFormat ≠ ""
        ∧ c.clientOptions.logConsoleSeparator ≠ "") := by
    simp [missingFieldsOf, List.append_eq_nil, hsingle]
  rw [← hmissing]
  by_cases he : (missingFieldsOf c).isEmpty
  · simp [validateMandatoryConfiguration, he, List.isEmpty_iff.mp he]
  · have hne : missingFieldsOf c ≠ [] := by
      simpa [List.isEmpty_iff] using he
    simp [validateMandatoryConfiguration, he, hne]

/-! ### Claim C5 -/

/-- A prior configuration with every field zero-valued, as a fresh
`&ClientConfig{}` is in Go. -/
def cfgZero : ClientConfig :=
  ⟨⟨"", ""⟩, ⟨"", "", ""⟩, ⟨"", "", "", false, 0, false, 0, 0, 0, 0⟩⟩

/-- An environment carrying exactly the four fields the claim calls
mandatory, and nothing else. -/
def envFourOnly : String → Option String := fun k =>
  if k = "CLIENT_ID" then some "id"
  else if k = "CLIENT_SECRET" then some "sec"
  else if k = "INSTANCE_NAME" then some "inst"
  else if k = "API_TYPE" then some "jamfpro"
  else none

/-- C5, counterexample: with all four claimed-mandatory fields present and
every optional variable absent, construction *fails* — the validator also
demands a non-empty `LogLevel` and `LogOutputFormat`, and no default (in
particular not `info`) is ever applied to them. -/
theorem c5_mandatory_four_insufficient_cex :
    GoClient.exceptIsOk
        (GoClient.LoadConfigFromEnv GoClient.trivTimeLib GoClient.envFourOnly GoClient.cfgZero)
      = false
    ∧ GoClient.envFourOnly "CLIENT_ID" = some "id"
    ∧ GoClient.envFourOnly "CLIENT_SECRET" = some "sec"
    ∧ GoClient.envFourOnly "INSTANCE_NAME" = some "inst"
    ∧ GoClient.envFourOnly "API_TYPE" = some "jamfpro" := by
  refine ⟨by decide, by decide, by decide, by decide, by decide⟩

/-- C5, amended: construction from the environment fails exactly when one of
*six* string fields — client-id, client-secret, instance-name, API-type,
log-level, log-output-format — resolves (environment value, else prior
config value) to the empty string.  The console separator alone is defaulted
(to `","`) before validation; `LogLevel` does not default to `info`, its
absence is a construction failure. -/
theorem c5_construction_error_characterization (lib : GoClient.GoTimeLib)
    (env : String → Option String) (cfg : GoClient.ClientConfig) :
    GoClient.exceptIsOk (GoClient.LoadConfigFromEnv lib env cfg) = false ↔
      (GoClient.getEnvOrDefault env "CLIENT_ID" cfg.auth.clientID = ""
        ∨ GoClient.getEnvOrDefault env "CLIENT_SECRET" cfg.auth.clientSecret = ""
        ∨ GoClient.getEnvOrDefault env "INSTANCE_NAME" cfg.environment.instanceName = ""
        ∨ GoClient.getEnvOrDefault env "API_TYPE" cfg.environment.apiType = ""
        ∨ GoClient.getEnvOrDefault env "LOG_LEVEL" cfg.clientOptions.logLevel = ""
        ∨ GoClient.getEnvOrDefault env "LOG_OUTPUT_FORMAT" cfg.clientOptions.logOutputFormat
            = "") := by
  have hsep : (GoClient.resolvedConfig lib env cfg).clientOptions.logConsoleSeparator ≠ "" := by
    show (if GoClient.getEnvOrDefault env "LOG_CONSOLE_SEPARATOR"
        cfg.clientOptions.logConsoleSeparator = "" then ","
      else GoClient.getEnvOrDefault env "LOG_CONSOLE_SEPARATOR"
        cfg.clientOptions.logConsoleSeparator) ≠ ""
    split
    · simp
    · next h => exact h
  have hval := GoClient.validate_none_iff (GoClient.resolvedConfig lib env cfg)
  constructor
  · intro hfail
    by_contra hdisj
    push_neg at hdisj
    obtain ⟨d1, d2, d3, d4, d5, d6⟩ := hdisj
    have hnone : GoClient.validateMandatoryConfiguration (GoClient.resolvedConfig lib env cfg)
        = none := hval.mpr ⟨d1, d2, d3, d4, d5, d6, hsep⟩
    simp [GoClient.LoadConfigFromEnv, hnone, GoClient.exceptIsOk] at hfail
  · intro hdisj
    rcases hv : GoClient.validateMandatoryConfiguration (GoClient.resolvedConfig lib env cfg)
      with _ | e
    · exfalso
      obtain ⟨h1, h2, h3, h4, h5, h6, _⟩ := hval.mp hv
      rcases hdisj with d | d | d | d | d | d
      · exact h1 d
      · exact h2 d
      · exact h3 d
      · exact h4 d
      · exact h5 d
      · exact h6 d
    · simp [GoClient.LoadConfigFromEnv, hv, GoClient.exceptIsOk]

/-! ### Claim C10 -/

/-- C10: a boolean environment variable set to an unparseable string makes
the corresponding flag `false` (neither the prior value nor a default), an
unparseable integer or duration variable falls back to its compiled default,
and neither case makes loading fail — validation only inspects the string
fields. -/
theorem c10_invalid_bool_false_defaults (lib : GoClient.GoTimeLib)
    (env : String → Option String) (cfg : GoClient.ClientConfig) :
    (∀ s, env "HIDE_SENSITIVE_DATA" = some s → GoClient.strconvParseBool s = none →
      (GoClient.resolvedConfig lib env cfg).clientOptions.hideSensitiveData = false)
    ∧ (∀ s, env "ENABLE_DYNAMIC_RATE_LIMITING" = some s →
        GoClient.strconvParseBool s = none →
        (GoClient.resolvedConfig lib env cfg).clientOptions.enableDynamicRateLimiting = false)
    ∧ (∀ s, env "MAX_RETRY_ATTEMPTS" = some s → GoClient.strconvAtoi s = none →
        (GoClient.resolvedConfig lib env cfg).clientOptions.maxRetryAttempts
          = GoClient.DefaultMaxRetryAttempts)
    ∧ (∀ s, env "TOTAL_RETRY_DURATION" = some s → lib.parseDur s = none →
        (GoClient.resolvedConfig lib env cfg).clientOptions.totalRetryDuration
          = GoClient.DefaultTotalRetryDuration)
    ∧ (GoClient.validateMandatoryConfiguration (GoClient.resolvedConfig lib env cfg) = none →
        GoClient.LoadConfigFromEnv lib env cfg
          = Except.ok (GoClient.resolvedConfig lib env cfg)) := by
  refine ⟨?_, ?_, ?_, ?_, ?_⟩
  · intro s hs hp
    simp [GoClient.resolvedConfig, GoClient.setClientDefaultValues,
      GoClient.setLoggerDefaultValues, GoClient.applyEnvConfig, GoClient.getEnvOrDefault,
      GoClient.parseBool, hs, hp]
  · intro s hs hp
    simp [GoClient.resolvedConfig, GoClient.setClientDefaultValues,
      GoClient.setLoggerDefaultValues, GoClient.applyEnvConfig, GoClient.getEnvOrDefault,
      GoClient.parseBool, hs, hp]
  · intro s hs hp
    simp [GoClient.resolvedConfig, GoClient.setClientDefaultValues,
      GoClient.setLoggerDefaultValues, GoClient.applyEnvConfig, GoClient.getEnvOrDefault,
      GoClient.parseInt, GoClient.DefaultMaxRetryAttempts, hs, hp]
  · intro s hs hp
    simp [GoClient.resolvedConfig, GoClient.setClientDefaultValues,
      GoClient.setLoggerDefaultValues, GoClient.applyEnvConfig, GoClient.getEnvOrDefault,
      GoClient.parseDuration, GoClient.DefaultTotalRetryDuration, GoClient.nsPerSec, hs, hp]
  · intro hn
    simp [GoClient.LoadConfigFromEnv, hn]

/-- The environment the C10 witness uses: invalid boolean and integer
values, the mandatory strings all present. -/
def envC10 : String → Option String := fun k =>
  if k = "HIDE_SENSITIVE_DATA" then some "banana"
  else if k = "MAX_RETRY_ATTEMPTS" then some "many"
  else if k = "CLIENT_ID" then some "id"
  else if k = "CLIENT_SECRET" then some "sec"
  else if k = "INSTANCE_NAME" then some "inst"
  else if k = "API_TYPE" then some "jamfpro"
  else if k = "LOG_LEVEL" then some "info"
  else if k = "LOG_OUTPUT_FORMAT" then some "json"
  else none

/-- C10, witness: `HIDE_SENSITIVE_DATA=banana` yields `false` and
`MAX_RETRY_ATTEMPTS=many` yields the compiled default 3. -/
theorem c10_invalid_bool_false_defaults_witness :
    (GoClient.resolvedConfig GoClient.trivTimeLib GoClient.envC10
        GoClient.cfgZero).clientOptions.hideSensitiveData = false
    ∧ (GoClient.resolvedConfig GoClient.trivTimeLib GoClient.envC10
        GoClient.cfgZero).clientOptions.maxRetryAttempts
        = GoClient.DefaultMaxRetryAttempts :=
  ⟨(c10_invalid_bool_false_defaults GoClient.trivTimeLib GoClient.envC10 GoClient.cfgZero).1
      "banana" (by decide) (by decide),
    (c10_invalid_bool_false_defaults GoClient.trivTimeLib GoClient.envC10
        GoClient.cfgZero).2.2.1 "many" (by decide) (by decide)⟩

/-! ## Status classification

Modelled from the spec: the `status` package is imported by
`http_request.go` but its source is not part of this repository snapshot;
§4.1 of the spec defines the classifier.  Transient codes are
408, 425, 429, 500, 502, 503, 504; every other code in 400–599 is
non-retryable; 429 is additionally rate-limited; a retryable code is a
transient one (the executor consults these predicates on the response's
status code). -/

/-- Modelled from the spec: `status.IsTransientError` on the response's
code — 408, 425, 429, 500, 502, 503, 504. -/
def IsTransientError (code : Int) : Bool :=
  code == 408 || code == 425 || code == 429 || code == 500
    || code == 502 || code == 503 || code == 504

/-- Modelled from the spec: `status.IsRateLimitError`. -/
def IsRateLimitError (code : Int) : Bool := code == 429

/-- Modelled from the spec: `status.IsNonRetryableStatusCode` — "all others
in 400–599". -/
def IsNonRetryableStatusCode (code : Int) : Bool :=
  decide (400 ≤ code) && decide (code ≤ 599) && !(IsTransientError code)

/-- Modelled from the spec: `status.IsRetryableStatusCode`. -/
def IsRetryableStatusCode (code : Int) : Bool :=
  IsTransientError code || IsRateLimitError code

/-- Modelled from the spec: `httpmethod.IsIdempotentHTTPMethod`, §4.9
dispatch — GET, PUT, DELETE, HEAD, OPTIONS take the retry path. -/
def IsIdempotentHTTPMethod (method : String) : Bool :=
  method = "GET" || method = "PUT" || method = "DELETE"
    || method = "HEAD" || method = "OPTIONS"

/-- Modelled from the spec: `httpmethod.IsNonIdempotentHTTPMethod` —
POST and PATCH take the single-shot path. -/
def IsNonIdempotentHTTPMethod (method : String) : Bool :=
  method = "POST" || method = "PATCH"

/-! ## Request executor (`http_request.go`)

The executor is embedded as a function of an *oracle environment*: the
outcomes of the out-of-repository collaborators (auth handler, concurrency
permit, marshalling, and the HTTP transport — a finite script of send
results, one per loop iteration).  Time is an explicit `Int` nanosecond
clock that advances only across `time.Sleep` calls (sends are taken as
instantaneous; this only strengthens the time-bound counterexample).  The
run also produces the ordered list of observable events: permit
acquisition/release (`defer` semantics: the release is appended on *every*
exit of the post-acquisition body, panics included), the
`Metrics.TotalRequests++` increment, each HTTP send, each sleep with its
start instant and length, and each `EvaluateAndAdjustConcurrency` feedback
call. -/

/-- An HTTP response as the executor observes it. -/
structure Resp where
  statusCode : Int
  headers : Headers
  contentType : String
  body : Option String
  parsed : Option JVal

/-- View of a `Resp` for the error decoder. -/
def toErrResponse (r : Resp) : ErrResponse :=
  ⟨r.statusCode, r.contentType, r.body, r.parsed⟩

/-- Result of one `c.do`: a transport error (`resp == nil, err != nil`) or a
response. -/
inductive SendResult where
  | transport
  | ok (r : Resp)

/-- Observable events of one call. -/
inductive Ev where
  | acquire
  | release
  | incrTotal
  | send
  | feedback
  | rlSleep (start len : Int)
  | boSleep (start len : Int)
deriving DecidableEq

/-- How a call ends.  `panicked` is a nil-pointer dereference of the absent
response (`resp.StatusCode` at line 233 / `HandleAPIErrorResponse(resp)` at
lines 230 and 243 of http_request.go).  `outOfScript` is a model artifact:
the oracle script ended while the loop wanted another send. -/
inductive Outcome where
  | success (r : Resp)
  | apiError (e : APIError)
  | transportError
  | panicked
  | authFailed
  | acquireFailed
  | marshalFailed
  | unsupported
  | outOfScript

/-- The oracle environment of one call.  `backoff` stands for
`ratehandler.CalculateBackoff` with its jitter (the loop only ever sleeps
`max (backoff n) 0`, as `time.Sleep` returns immediately on a negative
duration; the real function is non-negative).  `authOk` is
`CheckAndRefreshAuthToken` returning `(true, nil)`; `acquireOk` is
`AcquireConcurrencyPermit` succeeding; `marshalOk` is
`APIHandler.MarshalRequest` succeeding (`http.NewRequest` cannot fail for
the well-formed methods and URLs at issue). -/
structure RetryEnv where
  lib : GoTimeLib
  backoff : Int → Int
  authOk : Bool
  acquireOk : Bool
  marshalOk : Bool
  script : List SendResult
  maxRetryAttempts : Int
  totalRetryDuration : Int
  startTime : Int

/-- The retry loop of `executeRequestWithRetries` (lines 175-236 plus the
fall-through at lines 239-243).  Per iteration, in source order: the
deadline guard; the send; `err == nil && 200 <= code < 400` → success;
non-retryable → decoded error; rate-limited with a positive parsed wait →
sleep and continue; transient → bump `retryCount`, stop past the budget,
else backoff-sleep and continue; `err != nil || !retryable` → decoded
error — on a transport error (`resp == nil`) this branch dereferences the
nil response and panics.  Deadline exhaustion decodes the last response
(nil if the loop never ran → panic at line 243). -/
def retryLoop (lib : GoTimeLib) (backoff : Int → Int) (deadline maxRetry : Int) :
    List SendResult → Int → Int → Option Resp → Outcome × List Ev
  | script, now, rc, last =>
    if now < deadline then
      match script with
      | [] => (.outOfScript, [])
      | .transport :: _ => (.panicked, [.send])
      | .ok r :: rest =>
        if 200 ≤ r.statusCode ∧ r.statusCode < 400 then (.success r, [.send])
        else if IsNonRetryableStatusCode r.statusCode then
          (.apiError (handleAPIErrorResponse (toErrResponse r)), [.send])
        else
          let w := parseRateLimitHeaders lib r.headers now
          if IsRateLimitError r.statusCode ∧ 0 < w then
            let next := retryLoop lib backoff deadline maxRetry rest (now + w) rc (some r)
            (next.1, .send :: .rlSleep now w :: next.2)
          else if IsTransientError r.statusCode then
            let rc' := rc + 1
            if maxRetry < rc' then
              (.apiError (handleAPIErrorResponse (toErrResponse r)), [.send])
            else
              let d := max (backoff rc') 0
              let next := retryLoop lib backoff deadline maxRetry rest (now + d) rc' (some r)
              (next.1, .send :: .boSleep now d :: next.2)
          else if !(IsRetryableStatusCode r.statusCode) then
            (.apiError (handleAPIErrorResponse (toErrResponse r)), [.send])
          else
            let next := retryLoop lib backoff deadline maxRetry rest now rc (some r)
            (next.1, .send :: next.2)
    else
      match last with
      | some r => (.apiError (handleAPIErrorResponse (toErrResponse r)), [])
      | none => (.panicked, [])

/-- Function `executeRequestWithRetries` (lines 112-244): auth check, permit
acquisition with deferred release, marshal, `TotalRequests++`, then the
retry loop.  `EvaluateAndAdjustConcurrency` is never called on this path. -/
def executeRequestWithRetries (e : RetryEnv) : Outcome × List Ev :=
  if !e.authOk then (.authFailed, [])
  else if !e.acquireOk then (.acquireFailed, [])
  else
    let inner : Outcome × List Ev :=
      if !e.marshalOk then (.marshalFailed, [])
      else
        let next := retryLoop e.lib e.backoff (e.startTime + e.totalRetryDuration)
          e.maxRetryAttempts e.script e.startTime 0 none
        (next.1, .incrTotal :: next.2)
    (inner.1, .acquire :: inner.2 ++ [.release])

/-- Function `executeRequest` (lines 278-372), the single-shot path: same prologue,
exactly one send from the script head, feedback
(`EvaluateAndAdjustConcurrency`) only after a *successful* send, no sleeps,
no retries, and no `TotalRequests` increment.  A non-2xx/3xx status is
decoded to an error immediately. -/
def executeRequest (e : RetryEnv) : Outcome × List Ev :=
  if !e.authOk then (.authFailed, [])
  else if !e.acquireOk then (.acquireFailed, [])
  else
    let inner : Outcome × List Ev :=
      if !e.marshalOk then (.marshalFailed, [])
      else
        match e.script with
        | [] => (.outOfScript, [])
        | .transport :: _ => (.transportError, [.send])
        | .ok r :: _ =>
          if 200 ≤ r.statusCode ∧ r.statusCode < 400 then
            (.success r, [.send, .feedback])
          else
            (.apiError (handleAPIErrorResponse (toErrResponse r)), [.send, .feedback])
    (inner.1, .acquire :: inner.2 ++ [.release])

/-- Function `DoRequest` (lines 67-77): dispatch on idempotency. -/
def DoRequest (e : RetryEnv) (method : String) : Outcome × List Ev :=
  if IsIdempotentHTTPMethod method then executeRequestWithRetries e
  else if IsNonIdempotentHTTPMethod method then executeRequest e
  else (.unsupported, [])

/-! ### Event counting helpers -/

/-- Number of events satisfying `p`. -/
def countP (p : Ev → Bool) (l : List Ev) : Nat := (l.filter p).length

def evIsSend : Ev → Bool
  | .send => true
  | _ => false

def evIsBoSleep : Ev → Bool
  | .boSleep _ _ => true
  | _ => false

def evIsRlSleep : Ev → Bool
  | .rlSleep _ _ => true
  | _ => false

def evIsSleep (ev : Ev) : Bool := evIsRlSleep ev || evIsBoSleep ev

def evIsAcquire : Ev → Bool
  | .acquire => true
  | _ => false

def evIsRelease : Ev → Bool
  | .release => true
  | _ => false

def evIsIncrTotal : Ev → Bool
  | .incrTotal => true
  | _ => false

def evIsFeedback : Ev → Bool
  | .feedback => true
  | _ => false

/-- Total time slept during a run (the wall time of the call, sends being
instantaneous in the model). -/
def sleepTime : List Ev → Int
  | [] => 0
  | .rlSleep _ d :: tl => d + sleepTime tl
  | .boSleep _ d :: tl => d + sleepTime tl
  | _ :: tl => sleepTime tl

/-! ### Retry-loop invariants -/

/-- Events not counted by `p` drop out of `countP`. -/
theorem countP_cons_false {p : Ev → Bool} {ev : Ev} (l : List Ev) (h : p ev = false) :
    countP p (ev :: l) = countP p l := by
  simp [countP, List.filter_cons, h]

/-- Events counted by `p` add one to `countP`. -/
theorem countP_cons_true {p : Ev → Bool} {ev : Ev} (l : List Ev) (h : p ev = true) :
    countP p (ev :: l) = countP p l + 1 := by
  simp [countP, List.filter_cons, h]

/-- Counting distributes over append. -/
theorem countP_append (p : Ev → Bool) (l1 l2 : List Ev) :
    countP p (l1 ++ l2) = countP p l1 + countP p l2 := by
  simp [countP, List.filter_append]

/-- The retry loop emits only send and sleep events (no permit or metric
events), so any count of the latter over its trace is zero. -/
theorem retryLoop_countP_zero (p : Ev → Bool) (hsend : p .send = false)
    (hrl : ∀ s d, p (.rlSleep s d) = false) (hbo : ∀ s d, p (.boSleep s d) = false)
    (lib : GoTimeLib) (backoff : Int → Int) (deadline maxRetry : Int) :
    ∀ (script : List SendResult) (now rc : Int) (last : Option Resp),
      countP p (retryLoop lib backoff deadline maxRetry script now rc last).2 = 0 := by
  intro script
  induction script with
  | nil =>
    intro now rc last
    simp only [retryLoop]
    split
    · simp [countP]
    · split <;> simp [countP]
  | cons s rest ih =>
    intro now rc last
    cases s with
    | transport =>
      simp only [retryLoop]
      split
      · simp [countP, hsend]
      · split <;> simp [countP]
    | ok r =>
      simp only [retryLoop]
      split
      · split
        · simp [countP, hsend]
        · split
          · simp [countP, hsend]
          · split
            · dsimp only
              rw [countP_cons_false _ hsend, countP_cons_false _ (hrl _ _)]
              exact ih _ _ _
            · split
              · split
                · simp [countP, hsend]
                · dsimp only
                  rw [countP_cons_false _ hsend, countP_cons_false _ (hbo _ _)]
                  exact ih _ _ _
              · split
                · simp [countP, hsend]
                · dsimp only
                  rw [countP_cons_false _ hsend]
                  exact ih _ _ _
      · split <;> simp [countP]

/-- Every sleep recorded by the retry loop begins strictly before the
deadline: the loop guard is re-checked before each iteration and the sleep
starts at the iteration's clock. -/
theorem retryLoop_sleep_before_deadline (lib : GoTimeLib) (backoff : Int → Int)
    (deadline maxRetry : Int) :
    ∀ (script : List SendResult) (now rc : Int) (last : Option Resp) (s d : Int),
      (Ev.rlSleep s d ∈ (retryLoop lib backoff deadline maxRetry script now rc last).2
        ∨ Ev.boSleep s d ∈ (retryLoop lib backoff deadline maxRetry script now rc last).2) →
      s < deadline := by
  intro script
  induction script with
  | nil =>
    intro now rc last s d hmem
    simp only [retryLoop] at hmem
    rcases hmem with h | h <;> [skip; skip] <;>
      · split at h
        · simp at h
        · split at h <;> simp at h
  | cons sr rest ih =>
    intro now rc last s d hmem
    cases sr with
    | transport =>
      simp only [retryLoop] at hmem
      rcases hmem with h | h <;>
        · split at h
          · simp at h
          · split at h <;> simp at h
    | ok r =>
      simp only [retryLoop] at hmem
      by_cases hguard : now < deadline
      swap
      · rw [if_neg hguard] at hmem
        rcases hmem with h | h <;>
          · split at h <;> simp at h
      · rw [if_pos hguard] at hmem
        rcases hmem with h | h
        · split at h
          · simp at h
          · split at h
            · simp at h
            · split at h
              · simp at h
                rcases h with ⟨hs, _⟩ | h
                · omega
                · exact ih _ rc (some r) s d (Or.inl h)
              · split at h
                · split at h
                  · simp at h
                  · simp at h
                    exact ih _ _ (some r) s d (Or.inl h)
                · split at h
                  · simp at h
                  · simp at h
                    exact ih now rc (some r) s d (Or.inl h)
        · split at h
          · simp at h
          · split at h
            · simp at h
            · split at h
              · simp at h
                exact ih _ rc (some r) s d (Or.inr h)
              · split at h
                · split at h
                  · simp at h
                  · simp at h
                    rcases h with ⟨hs, _⟩ | h
                    · omega
                    · exact ih _ _ (some r) s d (Or.inr h)
                · split at h
                  · simp at h
                  · simp at h
                    exact ih now rc (some r) s d (Or.inr h)

/-- The retry loop entered with `retryCount = rc ≤ maxRetry` performs at most
`maxRetry - rc` backoff sleeps: the counter is incremented before the bound
check and the loop stops past the budget without sleeping again. -/
theorem retryLoop_countBo_le (lib : GoTimeLib) (backoff : Int → Int)
    (deadline maxRetry : Int) :
    ∀ (script : List SendResult) (now rc : Int) (last : Option Resp), rc ≤ maxRetry →
      (countP evIsBoSleep (retryLoop lib backoff deadline maxRetry script now rc last).2 : Int)
        ≤ maxRetry - rc := by
  intro script
  induction script with
  | nil =>
    intro now rc last hrc
    simp only [retryLoop]
    split
    · simp [countP]
      omega
    · split <;> (simp [countP]; omega)
  | cons s rest ih =>
    intro now rc last hrc
    cases s with
    | transport =>
      simp only [retryLoop]
      split
      · simp [countP, evIsBoSleep]
        omega
      · split <;> (simp [countP]; omega)
    | ok r =>
      simp only [retryLoop]
      split
      · split
        · simp [countP, evIsBoSleep]
          omega
        · split
          · simp [countP, evIsBoSleep]
            omega
          · split
            · dsimp only
              rw [countP_cons_false _ (by rfl), countP_cons_false _ (by rfl)]
              exact ih _ _ _ hrc
            · split
              · split
                · simp [countP, evIsBoSleep]
                  omega
                · next hnot =>
                  dsimp only
                  rw [countP_cons_false _ (by rfl), countP_cons_true _ (by rfl)]
                  have hrec := ih (now + max (backoff (rc + 1)) 0) (rc + 1) (some r)
                    (by omega)
                  push_cast
                  push_cast at hrec
                  omega
              · split
                · simp [countP, evIsBoSleep]
                  omega
                · dsimp only
                  rw [countP_cons_false _ (by rfl)]
                  exact ih _ _ _ hrc
      · split <;> (simp [countP]; omega)

/-- A transient status code is not a success code, is not non-retryable, and
is retryable. -/
theorem transient_code_props (code : Int) (h : IsTransientError code = true) :
    ¬(200 ≤ code ∧ code < 400) ∧ IsNonRetryableStatusCode code = false
      ∧ IsRetryableStatusCode code = true := by
  simp only [IsTransientError, Bool.or_eq_true, beq_iff_eq] at h
  rcases h with ((((((h | h) | h) | h) | h) | h) | h) <;> subst h <;>
    exact ⟨by omega, by decide, by decide⟩

/-- A script of persistently transient (non-429) responses, run with a zero
backoff engine and the clock inside the deadline, exhausts the attempt
budget: the loop ends in the decoded error of that response after exactly
`maxRetry - rc + 1` sends. -/
theorem retryLoop_replicate_transient (lib : GoTimeLib) (deadline maxRetry now : Int)
    (r : Resp) (hT : IsTransientError r.statusCode = true)
    (hRL : IsRateLimitError r.statusCode = false) (hnow : now < deadline) :
    ∀ (k : Nat) (rc : Int) (last : Option Resp), rc ≤ maxRetry → maxRetry < (k : Int) + rc →
      (retryLoop lib (fun _ => 0) deadline maxRetry
          (List.replicate k (.ok r)) now rc last).1
        = .apiError (handleAPIErrorResponse (toErrResponse r))
      ∧ (countP evIsSend (retryLoop lib (fun _ => 0) deadline maxRetry
          (List.replicate k (.ok r)) now rc last).2 : Int)
        = maxRetry - rc + 1 := by
  obtain ⟨hS, hNR, _⟩ := transient_code_props r.statusCode hT
  intro k
  induction k with
  | zero =>
    intro rc last h1 h2
    exfalso
    push_cast at h2
    omega
  | succ k ihk =>
    intro rc last h1 h2
    rw [List.replicate_succ]
    simp only [retryLoop]
    rw [if_pos hnow, if_neg hS, if_neg (by simp [hNR]), if_neg (by simp [hRL]),
      if_pos hT]
    by_cases hmax : maxRetry < rc + 1
    · rw [if_pos hmax]
      refine ⟨rfl, ?_⟩
      simp [countP, evIsSend]
      omega
    · rw [if_neg hmax]
      dsimp only
      simp only [max_self, add_zero]
      have hrec := ihk (rc + 1) (some r) (by omega) (by push_cast at h2 ⊢; omega)
      refine ⟨hrec.1, ?_⟩
      rw [countP_cons_true _ (by rfl), countP_cons_false _ (by rfl)]
      push_cast
      push_cast at hrec
      omega

/-- Counting over a cons, with the head's membership left conditional. -/
theorem countP_cons (p : Ev → Bool) (ev : Ev) (l : List Ev) :
    countP p (ev :: l) = countP p l + (if p ev then 1 else 0) := by
  by_cases h : p ev <;> simp [countP, List.filter_cons, h]

/-- On the retry path with auth and permit acquisition succeeding, the count
of any event kind other than sends and sleeps is read off the wrapper:
one `acquire`, one `incrTotal` when marshalling succeeds, one `release`. -/
theorem retries_countP (p : Ev → Bool) (hsend : p .send = false)
    (hrl : ∀ s d, p (.rlSleep s d) = false) (hbo : ∀ s d, p (.boSleep s d) = false)
    (e : RetryEnv) (hauth : e.authOk = true) (hacq : e.acquireOk = true) :
    countP p (executeRequestWithRetries e).2
      = (if p .acquire then 1 else 0)
        + (if e.marshalOk && p .incrTotal then 1 else 0)
        + (if p .release then 1 else 0) := by
  have hloop := retryLoop_countP_zero p hsend hrl hbo e.lib e.backoff
    (e.startTime + e.totalRetryDuration) e.maxRetryAttempts e.script e.startTime 0 none
  by_cases hm : e.marshalOk
  · have htrace : (executeRequestWithRetries e).2
        = .acquire :: (.incrTotal :: (retryLoop e.lib e.backoff
            (e.startTime + e.totalRetryDuration) e.maxRetryAttempts e.script
            e.startTime 0 none).2) ++ [.release] := by
      simp [executeRequestWithRetries, hauth, hacq, hm]
    rw [htrace, countP_append, countP_cons, countP_cons, hloop]
    by_cases pa : p .acquire <;> by_cases pi : p .incrTotal <;>
      by_cases pr : p .release <;> simp [countP, List.filter, pa, pi, pr, hm]
  · have htrace : (executeRequestWithRetries e).2 = [.acquire, .release] := by
      simp [executeRequestWithRetries, hauth, hacq, hm]
    rw [htrace]
    by_cases pa : p .acquire <;> by_cases pr : p .release <;>
      simp [countP, List.filter, pa, pr, hm]

/-! ### Claim C1 -/

/-- C1.  On the idempotent (retry) path a transport error does not lead to a
retry or a surfaced `Transport` error: the very first failed send ends the
call in a nil-pointer panic.  After `c.do` returns `(nil, err)`, the loop
reaches `if err != nil || !status.IsRetryableStatusCode(resp.StatusCode)` and
dereferences the nil `resp` (`HandleAPIErrorResponse(resp)` at line 230,
`resp.StatusCode` at line 233); only one send ever happens.  The deferred
permit release still runs. -/
theorem c1_transport_error_panics_no_retry (e : RetryEnv)
    (hdur : 0 < e.totalRetryDuration) (hauth : e.authOk = true)
    (hacq : e.acquireOk = true) (hm : e.marshalOk = true)
    (rest : List SendResult) (hs : e.script = .transport :: rest) :
    (executeRequestWithRetries e).1 = .panicked
    ∧ countP evIsSend (executeRequestWithRetries e).2 = 1
    ∧ countP evIsRelease (executeRequestWithRetries e).2 = 1 := by
  have hguard : e.startTime < e.startTime + e.totalRetryDuration := by omega
  have htrace : executeRequestWithRetries e
      = (.panicked, [.acquire, .incrTotal, .send, .release]) := by
    simp only [executeRequestWithRetries, hauth, hacq, hm, hs]
    simp [retryLoop, hguard]
  rw [htrace]
  refine ⟨rfl, by decide, by decide⟩

/-- The concrete environment of the C1 witness: a GET whose only send fails
at the transport level, well inside the retry budget. -/
def envC1 : RetryEnv :=
  ⟨trivTimeLib, fun _ => 0, true, true, true, [.transport], 3, 10, 0⟩

/-- C1, witness: the theorem applied to `envC1`. -/
theorem c1_transport_error_panics_no_retry_witness :
    (executeRequestWithRetries envC1).1 = .panicked
    ∧ countP evIsSend (executeRequestWithRetries envC1).2 = 1
    ∧ countP evIsRelease (executeRequestWithRetries envC1).2 = 1 :=
  c1_transport_error_panics_no_retry envC1 (by decide) rfl rfl rfl [] rfl

/-! ### Claim C2 -/

/-- C2, amended: every sleep (rate-limit wait or backoff) *begins* strictly
before the deadline `start + total-retry-duration`, because the loop guard
is re-checked before each iteration; but nothing checks that a sleep also
*ends* before the deadline. -/
theorem c2_sleeps_begin_before_deadline (e : RetryEnv) (s d : Int)
    (hmem : Ev.rlSleep s d ∈ (executeRequestWithRetries e).2
      ∨ Ev.boSleep s d ∈ (executeRequestWithRetries e).2) :
    s < e.startTime + e.totalRetryDuration := by
  by_cases hauth : e.authOk
  case neg =>
    exfalso
    simp [executeRequestWithRetries, hauth] at hmem
  by_cases hacq : e.acquireOk
  case neg =>
    exfalso
    simp [executeRequestWithRetries, hauth, hacq] at hmem
  by_cases hm : e.marshalOk
  case neg =>
    exfalso
    simp [executeRequestWithRetries, hauth, hacq, hm] at hmem
  rcases hmem with h | h
  · simp only [executeRequestWithRetries, hauth, hacq, hm, Bool.not_true] at h
    simp [List.mem_append, List.mem_cons] at h
    exact retryLoop_sleep_before_deadline e.lib e.backoff _ e.maxRetryAttempts
      e.script e.startTime 0 none s d (Or.inl h)
  · simp only [executeRequestWithRetries, hauth, hacq, hm, Bool.not_true] at h
    simp [List.mem_append, List.mem_cons] at h
    exact retryLoop_sleep_before_deadline e.lib e.backoff _ e.maxRetryAttempts
      e.script e.startTime 0 none s d (Or.inr h)

/-- A 429 response advertising `Retry-After: 9`. -/
def r429a : Resp := ⟨429, ⟨"9", "", ""⟩, "", none, none⟩

/-- A 429 response advertising `Retry-After: 100`. -/
def r429b : Resp := ⟨429, ⟨"100", "", ""⟩, "", none, none⟩

/-- The C2 counterexample environment: total retry duration 10 s, first 429
tells the client to wait 9 s, the second to wait 100 s. -/
def envC2 : RetryEnv :=
  ⟨trivTimeLib, fun _ => 0, true, true, true, [.ok r429a, .ok r429b], 3,
    10 * nsPerSec, 0⟩

/-- C2, counterexample.  `time.Sleep(waitDuration)` at line 210 is not
guarded by the deadline: at 9 s into a 10-second budget, a 429 advertising
`Retry-After: 100` makes the call sleep 100 s, so the wall time spent
waiting is 109 s — far beyond the configured total retry duration — and a
sleep is begun whose completion passes the deadline. -/
theorem c2_sleep_overshoots_deadline_cex :
    GoClient.sleepTime (GoClient.executeRequestWithRetries GoClient.envC2).2
      = 109 * GoClient.nsPerSec
    ∧ GoClient.envC2.totalRetryDuration = 10 * GoClient.nsPerSec
    ∧ Ev.rlSleep (9 * GoClient.nsPerSec) (100 * GoClient.nsPerSec)
        ∈ (GoClient.executeRequestWithRetries GoClient.envC2).2
    ∧ 10 * GoClient.nsPerSec < 9 * GoClient.nsPerSec + 100 * GoClient.nsPerSec := by
  refine ⟨by decide, by decide, by decide, by decide⟩

/-- C2, witness for the amended theorem: the 9-second wait of `envC2` is
begun at instant 0, before the 10-second deadline. -/
theorem c2_sleeps_begin_before_deadline_witness :
    (0 : Int) < GoClient.envC2.startTime + GoClient.envC2.totalRetryDuration :=
  c2_sleeps_begin_before_deadline GoClient.envC2 0 (9 * GoClient.nsPerSec)
    (Or.inl (by decide))

/-! ### Claim C3 -/

/-- C3.  (a) On any run of the retry path the number of backoff sleeps (the
re-sends counted by `retryCount`) never exceeds `max-retry-attempts`.
(b) Against persistently transient responses the call ends in the decoded
error of the last response after exactly `maxRetry + 1` sends — once the
counter would pass the bound, the loop breaks into the error return rather
than sending again. -/
theorem c3_retry_attempts_bounded :
    (∀ e : RetryEnv, 0 ≤ e.maxRetryAttempts →
      (countP evIsBoSleep (executeRequestWithRetries e).2 : Int) ≤ e.maxRetryAttempts)
    ∧ (∀ (lib : GoTimeLib) (maxRetry dur start : Int) (r : Resp) (k : Nat),
        0 ≤ maxRetry → 0 < dur → IsTransientError r.statusCode = true →
        IsRateLimitError r.statusCode = false → maxRetry < (k : Int) →
        (executeRequestWithRetries
            ⟨lib, fun _ => 0, true, true, true, List.replicate k (.ok r),
              maxRetry, dur, start⟩).1
          = .apiError (handleAPIErrorResponse (toErrResponse r))
        ∧ (countP evIsSend (executeRequestWithRetries
            ⟨lib, fun _ => 0, true, true, true, List.replicate k (.ok r),
              maxRetry, dur, start⟩).2 : Int)
          = maxRetry + 1) := by
  constructor
  · intro e hmax
    by_cases hauth : e.authOk
    case neg =>
      simp [executeRequestWithRetries, hauth, countP]
      omega
    by_cases hacq : e.acquireOk
    case neg =>
      simp [executeRequestWithRetries, hauth, hacq, countP]
      omega
    have hloop := retryLoop_countBo_le e.lib e.backoff
      (e.startTime + e.totalRetryDuration) e.maxRetryAttempts e.script
      e.startTime 0 none (by omega)
    by_cases hm : e.marshalOk
    · have htrace : (executeRequestWithRetries e).2
          = .acquire :: (.incrTotal :: (retryLoop e.lib e.backoff
              (e.startTime + e.totalRetryDuration) e.maxRetryAttempts e.script
              e.startTime 0 none).2) ++ [.release] := by
        simp [executeRequestWithRetries, hauth, hacq, hm]
      rw [htrace, countP_append, countP_cons, countP_cons]
      simp only [evIsBoSleep, if_false]
      have : countP evIsBoSleep [Ev.release] = 0 := by decide
      rw [this]
      push_cast
      push_cast at hloop
      omega
    · have htrace : (executeRequestWithRetries e).2 = [.acquire, .release] := by
        simp [executeRequestWithRetries, hauth, hacq, hm]
      rw [htrace]
      have : countP evIsBoSleep [Ev.acquire, Ev.release] = 0 := by decide
      rw [this]
      omega
  · intro lib maxRetry dur start r k hmax hdur hT hRL hk
    have hnow : start < start + dur := by omega
    have h := retryLoop_replicate_transient lib (start + dur) maxRetry start r hT hRL
      hnow k 0 none hmax (by omega)
    refine ⟨h.1, ?_⟩
    have htrace : (executeRequestWithRetries
        ⟨lib, fun _ => 0, true, true, true, List.replicate k (.ok r),
          maxRetry, dur, start⟩).2
        = .acquire :: (.incrTotal :: (retryLoop lib (fun _ => 0) (start + dur)
            maxRetry (List.replicate k (.ok r)) start 0 none).2) ++ [.release] := by
      simp [executeRequestWithRetries]
    rw [htrace, countP_append, countP_cons, countP_cons]
    simp only [evIsSend, if_false]
    have hone : countP evIsSend [Ev.release] = 0 := by decide
    rw [hone]
    have h2 := h.2
    push_cast
    push_cast at h2
    omega

/-- A bare 503 response. -/
def r503 : Resp := ⟨503, ⟨"", "", ""⟩, "", none, none⟩

/-- C3, witness: budget 1, three persistent 503s — the call errors out after
exactly two sends (the first try plus one counted retry). -/
theorem c3_retry_attempts_bounded_witness :
    (executeRequestWithRetries
        ⟨trivTimeLib, fun _ => 0, true, true, true,
          List.replicate 3 (.ok r503), 1, nsPerSec, 0⟩).1
      = .apiError (handleAPIErrorResponse (toErrResponse r503))
    ∧ (countP evIsSend (executeRequestWithRetries
        ⟨trivTimeLib, fun _ => 0, true, true, true,
          List.replicate 3 (.ok r503), 1, nsPerSec, 0⟩).2 : Int)
      = 1 + 1 :=
  c3_retry_attempts_bounded.2 trivTimeLib 1 nsPerSec 0 r503 3
    (by decide) (by decide) (by decide) (by decide) (by decide)

/-! ### Claim C4 -/

/-- A plain 200 response. -/
def r200 : Resp := ⟨200, ⟨"", "", ""⟩, "", none, none⟩

/-- The C4 environments: one successful call. -/
def envC4 : RetryEnv :=
  ⟨trivTimeLib, fun _ => 0, true, true, true, [.ok r200], 3, nsPerSec, 0⟩

/-- C4, counterexample.  The claim requires, on *both* paths and every exit,
a permit release, a `TotalRequests` increment *and* duration/outcome
feedback.  On a successful retry-path call no
`EvaluateAndAdjustConcurrency` feedback ever happens, and on a successful
single-shot call `TotalRequests` is never incremented. -/
theorem c4_metrics_asymmetric_cex :
    countP evIsFeedback (GoClient.executeRequestWithRetries GoClient.envC4).2 = 0
    ∧ (GoClient.executeRequestWithRetries GoClient.envC4).1 = .success GoClient.r200
    ∧ countP evIsIncrTotal (GoClient.executeRequest GoClient.envC4).2 = 0
    ∧ (GoClient.executeRequest GoClient.envC4).1 = .success GoClient.r200 := by
  refine ⟨by decide, rfl, by decide, rfl⟩

/-- C4, amended: after a successful permit acquisition the permit is
released exactly once on every exit path (the release is deferred, so this
includes the panic exits); but the metrics are split: the retry path
increments the total-request counter once (when marshalling succeeds) and
never calls the concurrency feedback, while the single-shot path calls the
feedback exactly once on a completed send and never increments the
counter.  With no successful acquisition nothing is released. -/
theorem c4_permit_once_metrics_split (e : RetryEnv) :
    countP evIsRelease (executeRequestWithRetries e).2
        = countP evIsAcquire (executeRequestWithRetries e).2
    ∧ (e.authOk = true → e.acquireOk = true →
        countP evIsRelease (executeRequestWithRetries e).2 = 1)
    ∧ countP evIsFeedback (executeRequestWithRetries e).2 = 0
    ∧ (e.authOk = true → e.acquireOk = true → e.marshalOk = true →
        countP evIsIncrTotal (executeRequestWithRetries e).2 = 1)
    ∧ countP evIsRelease (executeRequest e).2 = countP evIsAcquire (executeRequest e).2
    ∧ (e.authOk = true → e.acquireOk = true →
        countP evIsRelease (executeRequest e).2 = 1)
    ∧ countP evIsIncrTotal (executeRequest e).2 = 0
    ∧ (∀ (r : Resp) (rest : List SendResult), e.authOk = true → e.acquireOk = true →
        e.marshalOk = true → e.script = .ok r :: rest →
        countP evIsFeedback (executeRequest e).2 = 1) := by
  by_cases hauth : e.authOk
  case neg =>
    refine ⟨?_, ?_, ?_, ?_, ?_, ?_, ?_, ?_⟩ <;>
      simp [executeRequestWithRetries, executeRequest, hauth, countP]
  by_cases hacq : e.acquireOk
  case neg =>
    refine ⟨?_, ?_, ?_, ?_, ?_, ?_, ?_, ?_⟩ <;>
      simp [executeRequestWithRetries, executeRequest, hauth, hacq, countP]
  have hR := retries_countP evIsRelease rfl (fun _ _ => rfl) (fun _ _ => rfl) e hauth hacq
  have hA := retries_countP evIsAcquire rfl (fun _ _ => rfl) (fun _ _ => rfl) e hauth hacq
  have hF := retries_countP evIsFeedback rfl (fun _ _ => rfl) (fun _ _ => rfl) e hauth hacq
  have hI := retries_countP evIsIncrTotal rfl (fun _ _ => rfl) (fun _ _ => rfl) e hauth hacq
  refine ⟨?_, ?_, ?_, ?_, ?_, ?_, ?_, ?_⟩
  · rw [hR, hA]
    simp [evIsRelease, evIsAcquire, evIsIncrTotal]
  · intro _ _
    rw [hR]
    simp [evIsRelease, evIsAcquire, evIsIncrTotal]
  · rw [hF]
    simp [evIsFeedback]
  · intro _ _ hm
    rw [hI]
    simp [evIsIncrTotal, hm]
  · by_cases hm : e.marshalOk
    · rcases hscript : e.script with _ | ⟨sr, rest⟩
      · simp [executeRequest, hauth, hacq, hm, hscript, countP] <;> decide
      · cases sr with
        | transport => simp [executeRequest, hauth, hacq, hm, hscript, countP] <;> decide
        | ok r =>
          by_cases hst : 200 ≤ r.statusCode ∧ r.statusCode < 400 <;>
            simp [executeRequest, hauth, hacq, hm, hscript, hst, countP] <;> decide
    · simp [executeRequest, hauth, hacq, hm, countP] <;> decide
  · intro _ _
    by_cases hm : e.marshalOk
    · rcases hscript : e.script with _ | ⟨sr, rest⟩
      · simp [executeRequest, hauth, hacq, hm, hscript, countP] <;> decide
      · cases sr with
        | transport => simp [executeRequest, hauth, hacq, hm, hscript, countP] <;> decide
        | ok r =>
          by_cases hst : 200 ≤ r.statusCode ∧ r.statusCode < 400 <;>
            simp [executeRequest, hauth, hacq, hm, hscript, hst, countP] <;> decide
    · simp [executeRequest, hauth, hacq, hm, countP] <;> decide
  · by_cases hm : e.marshalOk
    · rcases hscript : e.script with _ | ⟨sr, rest⟩
      · simp [executeRequest, hauth, hacq, hm, hscript, countP] <;> decide
      · cases sr with
        | transport => simp [executeRequest, hauth, hacq, hm, hscript, countP] <;> decide
        | ok r =>
          by_cases hst : 200 ≤ r.statusCode ∧ r.statusCode < 400 <;>
            simp [executeRequest, hauth, hacq, hm, hscript, hst, countP] <;> decide
    · simp [executeRequest, hauth, hacq, hm, countP] <;> decide
  · intro r rest _ _ hm hscript
    by_cases hst : 200 ≤ r.statusCode ∧ r.statusCode < 400 <;>
      simp [executeRequest, hauth, hacq, hm, hscript, hst, countP] <;> decide

/-- C4, witness: the amended theorem's conditional clauses applied to the
successful concrete call `envC4`. -/
theorem c4_permit_once_metrics_split_witness :
    countP evIsRelease (executeRequestWithRetries envC4).2 = 1
    ∧ countP evIsIncrTotal (executeRequestWithRetries envC4).2 = 1
    ∧ countP evIsFeedback (executeRequest envC4).2 = 1 :=
  ⟨(c4_permit_once_metrics_split envC4).2.1 rfl rfl,
    (c4_permit_once_metrics_split envC4).2.2.2.1 rfl rfl rfl,
    (c4_permit_once_metrics_split envC4).2.2.2.2.2.2.2 r200 [] rfl rfl rfl rfl⟩

/-! ### Claim C9 -/

/-- C9.  POST and PATCH dispatch to the single-shot path, which performs at
most one send, never sleeps (no backoff wait, no rate-limit wait), and turns
any non-2xx/3xx classification into an immediate decoded error. -/
theorem c9_single_shot_at_most_one_send :
    (∀ (e : RetryEnv) (method : String), method = "POST" ∨ method = "PATCH" →
      DoRequest e method = executeRequest e)
    ∧ (∀ e : RetryEnv, countP evIsSend (executeRequest e).2 ≤ 1)
    ∧ (∀ e : RetryEnv, countP evIsSleep (executeRequest e).2 = 0)
    ∧ (∀ (e : RetryEnv) (r : Resp) (rest : List SendResult),
        e.authOk = true → e.acquireOk = true → e.marshalOk = true →
        e.script = .ok r :: rest → ¬(200 ≤ r.statusCode ∧ r.statusCode < 400) →
        (executeRequest e).1 = .apiError (handleAPIErrorResponse (toErrResponse r))) := by
  refine ⟨?_, ?_, ?_, ?_⟩
  · intro e method hmethod
    rcases hmethod with h | h <;> subst h <;> rfl
  · intro e
    by_cases hauth : e.authOk
    case neg => simp [executeRequest, hauth, countP]
    by_cases hacq : e.acquireOk
    case neg => simp [executeRequest, hauth, hacq, countP]
    by_cases hm : e.marshalOk
    · rcases hscript : e.script with _ | ⟨sr, rest⟩
      · simp [executeRequest, hauth, hacq, hm, hscript, countP] <;> decide
      · cases sr with
        | transport => simp [executeRequest, hauth, hacq, hm, hscript, countP] <;> decide
        | ok r =>
          by_cases hst : 200 ≤ r.statusCode ∧ r.statusCode < 400 <;>
            simp [executeRequest, hauth, hacq, hm, hscript, hst, countP] <;> decide
    · simp [executeRequest, hauth, hacq, hm, countP] <;> decide
  · intro e
    by_cases hauth : e.authOk
    case neg => simp [executeRequest, hauth, countP]
    by_cases hacq : e.acquireOk
    case neg => simp [executeRequest, hauth, hacq, countP]
    by_cases hm : e.marshalOk
    · rcases hscript : e.script with _ | ⟨sr, rest⟩
      · simp [executeRequest, hauth, hacq, hm, hscript, countP] <;> decide
      · cases sr with
        | transport => simp [executeRequest, hauth, hacq, hm, hscript, countP] <;> decide
        | ok r =>
          by_cases hst : 200 ≤ r.statusCode ∧ r.statusCode < 400 <;>
            simp [executeRequest, hauth, hacq, hm, hscript, hst, countP] <;> decide
    · simp [executeRequest, hauth, hacq, hm, countP] <;> decide
  · intro e r rest hauth hacq hm hscript hst
    simp [executeRequest, hauth, hacq, hm, hscript, hst]

/-- The C9 witness environment: a POST answered by a 503. -/
def envC9 : RetryEnv :=
  ⟨trivTimeLib, fun _ => 0, true, true, true, [.ok r503], 3, nsPerSec, 0⟩

/-- C9, witness: `POST` dispatches to the single-shot path, and its 503
yields an immediate decoded error. -/
theorem c9_single_shot_at_most_one_send_witness :
    DoRequest envC9 "POST" = executeRequest envC9
    ∧ (executeRequest envC9).1
        = .apiError (handleAPIErrorResponse (toErrResponse r503)) :=
  ⟨c9_single_shot_at_most_one_send.1 envC9 "POST" (Or.inl rfl),
    c9_single_shot_at_most_one_send.2.2.2 envC9 r503 [] rfl rfl rfl rfl (by decide)⟩

/-! ### Claim C7 -/

/-- C7, counterexample.  The claim fails on the code in three ways:
(i) a JSON-labelled body that fails both parses falls to the final
`return apiError` (line 81) with `Raw` left empty, not attached;
(ii) the error record does not always carry the response's status code —
`json.Unmarshal(bodyBytes, &apiError)` matches a `statuscode` key
case-insensitively against the exported `StatusCode` field and overwrites it;
(iii) a `Content-Type` containing both `application/json` and `text/html`
takes the JSON branch, so an unparseable body yields the default message,
not `"HTML error page received"`. -/
theorem c7_decoder_raw_body_cex :
    (GoClient.handleAPIErrorResponse ⟨400, "application/json", some "not json", none⟩).raw = ""
    ∧ (GoClient.handleAPIErrorResponse
        ⟨400, "application/json", some "x", some (.jobj [("statuscode", .jnum 999)])⟩).statusCode = 999
    ∧ (GoClient.handleAPIErrorResponse
        ⟨500, "application/json; text/html", some "<p>err</p>", none⟩).message
        = "An error occurred" := by
  refine ⟨by decide, by decide, by decide⟩

/-- C7, amended: the decoder is a total function (never panics) and always
returns an error record; a read failure yields the bare record with the
response's status code; a `Content-Type` containing `text/html` *and not
`application/json`* yields the raw body and the message
`"HTML error page received"`; a JSON-labelled body that fails both the
structured and the generic parse degrades to the default record *without*
the raw body; any other content type attaches the raw body with the message
`"Non-JSON error response received"`. -/
theorem c7_decoder_amended (r : GoClient.ErrResponse) :
    (r.body = none →
      GoClient.handleAPIErrorResponse r = GoClient.mkBaseAPIError r.statusCode)
    ∧ (∀ b, r.body = some b → GoClient.isJSONResponse r = false →
        GoClient.isHTMLResponse r = true →
        GoClient.handleAPIErrorResponse r =
          { GoClient.mkBaseAPIError r.statusCode with
              raw := b, message := "HTML error page received" })
    ∧ (∀ b, r.body = some b → GoClient.isJSONResponse r = true → r.parsed = none →
        GoClient.handleAPIErrorResponse r = GoClient.mkBaseAPIError r.statusCode)
    ∧ (∀ b, r.body = some b → GoClient.isJSONResponse r = false →
        GoClient.isHTMLResponse r = false →
        GoClient.handleAPIErrorResponse r =
          { GoClient.mkBaseAPIError r.statusCode with
              raw := b, message := "Non-JSON error response received" }) := by
  refine ⟨?_, ?_, ?_, ?_⟩
  · intro h
    simp [GoClient.handleAPIErrorResponse, h]
  · intro b hb hj hh
    simp [GoClient.handleAPIErrorResponse, hb, hj, hh]
  · intro b hb hj hp
    simp [GoClient.handleAPIErrorResponse, hb, hj, hp]
  · intro b hb hj hh
    simp [GoClient.handleAPIErrorResponse, hb, hj, hh]

/-- C7, witness: the amended theorem applied to a concrete HTML error page. -/
theorem c7_decoder_amended_witness :
    GoClient.handleAPIErrorResponse ⟨404, "text/html", some "<b>e</b>", none⟩ =
      { GoClient.mkBaseAPIError 404 with
          raw := "<b>e</b>", message := "HTML error page received" } :=
  (c7_decoder_amended ⟨404, "text/html", some "<b>e</b>", none⟩).2.1
    "<b>e</b>" rfl (by decide) (by decide)

end GoClient
